import Mathlib

/-!
# Snowflake identifier generator (`src/lualib-src/lua_snowflake.cpp`)

A shallow embedding of the `Snowflake` class, the process-wide `snowflake_state`
holder and the two Lua entry points `linit` / `lnext`, followed by the properties
of the generator that are established about them.

Conventions of the embedding:

* `uint64_t` values are natural numbers, and every operation that can leave the
  64-bit range is reduced modulo `2 ^ 64` explicitly;
* `int` values are integers; the conversion of an `int` to `uint64_t` is `toU64`,
  the conversion of a 64-bit Lua integer to `int` is `toInt32`;
* the system clock is the list of the successive values that `current_time()`
  returns; a call that needs a reading when the list is exhausted has no result
  (`none`): inside `wait_for_next_millis` this is the spin loop that has not yet
  seen a later millisecond;
* a C++ exception or a Lua error is an `Except.error` carrying a `SnowflakeError`.
-/

/-! ## Constants -/

def DATACENTER_ID_BITS : Nat := 5
def WORKER_ID_BITS : Nat := 5
def SEQUENCE_BITS : Nat := 12

/-- Errors raised by the module.  `OutOfRange` is the `std::invalid_argument` of the
constructor and the `luaL_argcheck` failure of `linit`; `ClockMovedBackward` is the
`std::runtime_error` of `Snowflake::next`; `Uninitialized` is the `"not init"` error of
`lnext`. -/
inductive SnowflakeError where
  | OutOfRange
  | Uninitialized
  | ClockMovedBackward
  deriving DecidableEq, Repr

deriving instance DecidableEq for Except

/-- Conversion of an `int` to `uint64_t` (value modulo `2 ^ 64`). -/
def toU64 (x : Int) : Nat := (x % 2 ^ 64).toNat

/-- The cast `(int)` applied to a 64-bit Lua integer (two's complement wrap to 32 bits). -/
def toInt32 (x : Int) : Int := (x + 2 ^ 31) % 2 ^ 32 - 2 ^ 31

/-- The data members of `class Snowflake` (the mutex is not part of the sequential state). -/
structure Snowflake where
  datacenter_id_ : Int
  worker_id_ : Int
  sequence_ : Nat
  last_timestamp_ : Nat
  deriving DecidableEq, Repr

namespace Snowflake

def max_datacenter_id : Int := (1 <<< DATACENTER_ID_BITS : Nat) - 1
def max_worker_id : Int := (1 <<< WORKER_ID_BITS : Nat) - 1
def sequence_mask : Int := (1 <<< SEQUENCE_BITS : Nat) - 1

def datacenter_id_shift : Nat := SEQUENCE_BITS + WORKER_ID_BITS
def worker_id_shift : Nat := SEQUENCE_BITS
def timestamp_left_shift : Nat := SEQUENCE_BITS + WORKER_ID_BITS + DATACENTER_ID_BITS

/-- The constant 2020-01-01 00:00:00 UTC in milliseconds. -/
def epoch : Nat := 1577836800000

/-- The constructor `Snowflake::Snowflake(int datacenter_id, int worker_id)`: the members
are initialised, then either range check throws `std::invalid_argument`. -/
def new (datacenter_id worker_id : Int) : Except SnowflakeError Snowflake :=
  if datacenter_id < 0 ∨ datacenter_id ≥ ((1 <<< DATACENTER_ID_BITS : Nat) : Int) then
    .error .OutOfRange
  else if worker_id < 0 ∨ worker_id ≥ ((1 <<< WORKER_ID_BITS : Nat) : Int) then
    .error .OutOfRange
  else
    .ok { datacenter_id_ := datacenter_id, worker_id_ := worker_id,
          sequence_ := 0, last_timestamp_ := 0 }

/-- The value of the `return` expression of `Snowflake::next`, for the members of `s`
and the local `timestamp`:
`((timestamp - epoch) << timestamp_left_shift) | (datacenter_id_ << datacenter_id_shift)
 | (worker_id_ << worker_id_shift) | sequence_`.
The subtraction and the first shift are `uint64_t` operations (modulo `2 ^ 64`); the two
identifier shifts are `int` shifts (exact for the identifiers the constructor admits),
converted to `uint64_t` by the `|`. -/
def pack (s : Snowflake) (timestamp : Nat) : Nat :=
  ((((timestamp + (2 ^ 64 - epoch)) % 2 ^ 64) <<< timestamp_left_shift) % 2 ^ 64)
    ||| toU64 (s.datacenter_id_ * 2 ^ datacenter_id_shift)
    ||| toU64 (s.worker_id_ * 2 ^ worker_id_shift)
    ||| s.sequence_

/-- The loop of `Snowflake::wait_for_next_millis(last_timestamp)`: the clock is read until it
shows a value strictly greater than `last_timestamp`.  The result is that value and
the readings not consumed; `none` when no reading of the list is greater. -/
def wait_for_next_millis (last_timestamp : Nat) : List Nat → Option (Nat × List Nat)
  | [] => none
  | timestamp :: clock =>
    if timestamp ≤ last_timestamp then wait_for_next_millis last_timestamp clock
    else some (timestamp, clock)

/-- The method `Snowflake::next()`.  The result is `none` when the clock readings run out
before the call completes; otherwise the outcome (the identifier, or the exception), the
generator after the call and the readings not consumed. -/
def next (s : Snowflake) : List Nat → Option (Except SnowflakeError Nat × Snowflake × List Nat)
  | [] => none
  | timestamp :: clock =>
    if timestamp < s.last_timestamp_ then
      some (.error .ClockMovedBackward, s, clock)
    else if timestamp = s.last_timestamp_ then
      let sequence := ((s.sequence_ + 1) % 2 ^ 64) &&& toU64 sequence_mask
      if sequence = 0 then
        match wait_for_next_millis s.last_timestamp_ clock with
        | none => none
        | some (timestamp, clock) =>
          let s1 := { s with sequence_ := sequence, last_timestamp_ := timestamp }
          some (.ok (pack s1 timestamp), s1, clock)
      else
        let s1 := { s with sequence_ := sequence, last_timestamp_ := timestamp }
        some (.ok (pack s1 timestamp), s1, clock)
    else
      let s1 := { s with sequence_ := 0, last_timestamp_ := timestamp }
      some (.ok (pack s1 timestamp), s1, clock)

/-- Successive calls of `next` on one generator: `calls n s clock` makes up to `n` calls, one
after the other, and lists for each completed call its outcome and the generator after
it.  The list ends early when the clock readings run out. -/
def calls : Nat → Snowflake → List Nat → List (Except SnowflakeError Nat × Snowflake)
  | 0, _, _ => []
  | n + 1, s, clock =>
    match s.next clock with
    | none => []
    | some (r, s1, clock1) => (r, s1) :: calls n s1 clock1

/-- The generator and the clock readings left after `calls n s clock`. -/
def after : Nat → Snowflake → List Nat → Snowflake × List Nat
  | 0, s, clock => (s, clock)
  | n + 1, s, clock =>
    match s.next clock with
    | none => (s, [])
    | some (_, s1, clock1) => after n s1 clock1

end Snowflake

/-- The identifiers returned by the successful calls of a run, in order, each with the
generator state after the call that returned it. -/
def returned : List (Except SnowflakeError Nat × Snowflake) → List (Nat × Snowflake)
  | [] => []
  | (.ok id, s) :: rest => (id, s) :: returned rest
  | (.error _, _) :: rest => returned rest

/-- The holder `struct snowflake_state`: its only member is the shared pointer `snowflake`,
null (`none`) or owning a generator. -/
structure snowflake_state where
  snowflake : Option Snowflake
  deriving DecidableEq, Repr

/-- The global `snowflake_state g_snowflake;` (default-initialised: the pointer is null). -/
def g_snowflake : snowflake_state := { snowflake := none }

/-- The method `snowflake_state::init(int datacenter_id, int worker_id)`: an existing generator
is released, then a new one is constructed.  When the constructor throws, the exception
propagates and the pointer stays null. -/
def snowflake_state.init (g : snowflake_state) (datacenter_id worker_id : Int) :
    Except SnowflakeError Unit × snowflake_state :=
  let g1 : snowflake_state := if g.snowflake.isSome then { snowflake := none } else g
  if g1.snowflake.isNone then
    match Snowflake.new datacenter_id worker_id with
    | .error e => (.error e, g1)
    | .ok s => (.ok (), { snowflake := some s })
  else
    (.ok (), g1)

/-- The method `snowflake_state::next(uint64_t& id)`: with a generator, `id` receives the value
of `Snowflake::next` and the result is `true`; without one the result is `false`, `id` is
untouched and the clock is not read.  The pair is the boolean result and the final `id`. -/
def snowflake_state.next (g : snowflake_state) (id : Nat) (clock : List Nat) :
    Option (Except SnowflakeError (Bool × Nat) × snowflake_state × List Nat) :=
  match g.snowflake with
  | some s =>
    match s.next clock with
    | none => none
    | some (.ok v, s1, clock1) => some (.ok (true, v), { snowflake := some s1 }, clock1)
    | some (.error e, s1, clock1) => some (.error e, { snowflake := some s1 }, clock1)
  | none => some (.ok (false, id), g, clock)

/-- The Lua function `init`: both arguments are cast to `int`, checked by `luaL_argcheck`
(first the datacenter identifier, then the worker identifier), and handed to
`g_snowflake.init`.  The arguments are Lua integers. -/
def linit (g : snowflake_state) (arg1 arg2 : Int) : Except SnowflakeError Unit × snowflake_state :=
  let datacenter_id := toInt32 arg1
  let worker_id := toInt32 arg2
  if ¬ (datacenter_id > 0 ∧ datacenter_id < ((1 <<< DATACENTER_ID_BITS : Nat) : Int)) then
    (.error .OutOfRange, g)
  else if ¬ (worker_id > 0 ∧ worker_id < ((1 <<< WORKER_ID_BITS : Nat) : Int)) then
    (.error .OutOfRange, g)
  else
    g.init datacenter_id worker_id

/-- The Lua function `next`: `"not init"` is raised when `g_snowflake.next` reports `false`;
otherwise the identifier is pushed as its decimal text (`"%" PRIu64`). -/
def lnext (g : snowflake_state) (clock : List Nat) :
    Option (Except SnowflakeError String × snowflake_state × List Nat) :=
  match g.next 0 clock with
  | none => none
  | some (.error e, g1, clock1) => some (.error e, g1, clock1)
  | some (.ok (false, _), g1, clock1) => some (.error .Uninitialized, g1, clock1)
  | some (.ok (true, id), g1, clock1) => some (.ok (Nat.repr id), g1, clock1)

/-- A call made by a Lua script on the module. -/
inductive Call where
  | init (arg1 arg2 : Int)
  | next
  deriving DecidableEq, Repr

/-- The record of a completed call: which call, and whether it raised an error. -/
structure Event where
  call : Call
  failure : Option SnowflakeError
  deriving DecidableEq, Repr

/-- The failure of an outcome, if any. -/
def failureOf {α : Type} : Except SnowflakeError α → Option SnowflakeError
  | .ok _ => none
  | .error e => some e

/-- A history of calls on the module, run one after the other from holder `g` with clock
`clock`: the events of the completed calls, the holder and the clock readings left.  The
history stops at a call of `next` that does not complete. -/
def history : List Call → snowflake_state → List Nat → List Event × snowflake_state × List Nat
  | [], g, clock => ([], g, clock)
  | .init a b :: rest, g, clock =>
    let r := linit g a b
    let h := history rest r.2 clock
    ({ call := .init a b, failure := failureOf r.1 } :: h.1, h.2)
  | .next :: rest, g, clock =>
    match lnext g clock with
    | none => ([], g, [])
    | some (r, g1, clock1) =>
      let h := history rest g1 clock1
      ({ call := .next, failure := failureOf r } :: h.1, h.2)

/-! ## Predicates and scenarios used in the statements -/

/-- Generators whose identifiers passed the constructor checks. -/
def Snowflake.Configured (s : Snowflake) : Prop :=
  0 ≤ s.datacenter_id_ ∧ s.datacenter_id_ ≤ 31 ∧ 0 ≤ s.worker_id_ ∧ s.worker_id_ ≤ 31

instance (s : Snowflake) : Decidable s.Configured := by
  unfold Snowflake.Configured; infer_instance

/-- Generator states ordered by `(last_timestamp_, sequence_)`, lexicographically. -/
def Snowflake.Before (a b : Snowflake) : Prop :=
  a.last_timestamp_ < b.last_timestamp_ ∨
    (a.last_timestamp_ = b.last_timestamp_ ∧ a.sequence_ < b.sequence_)

/-- The clock readings all lie in the 41-bit window that starts at the epoch. -/
def InWindow (clock : List Nat) : Prop :=
  ∀ t ∈ clock, Snowflake.epoch ≤ t ∧ t < Snowflake.epoch + 2 ^ 41

instance (clock : List Nat) : Decidable (InWindow clock) := by
  unfold InWindow; infer_instance

/-- The identifier formula of the specification (sequencer, step 6), computed on unsigned
64-bit values: `((current - epoch) << 22) | (datacenterId << 17) | (workerId << 12) | sequence`
with `epoch` the instant 2020-01-01T00:00:00Z in milliseconds. -/
def specIdentifier (current datacenterId workerId sequence : Nat) : Nat :=
  let epoch := 1577836800000
  let u64 := fun (x : Nat) => x % 2 ^ 64
  u64 (u64 (current + 2 ^ 64 - epoch) <<< 22) ||| u64 (datacenterId <<< 17)
    ||| u64 (workerId <<< 12) ||| sequence

/-- The entry of a run for a successful call that used timestamp `T` and sequence `i`. -/
def Snowflake.minted (s : Snowflake) (T i : Nat) : Except SnowflakeError Nat × Snowflake :=
  (.ok (Snowflake.pack { s with sequence_ := i, last_timestamp_ := T } T),
    { s with sequence_ := i, last_timestamp_ := T })

/-- The scenario of a re-configuration: `init`, then `n` calls of `next` on the clock
readings `before`, then `init` again with the same identifiers, then `m` calls of `next` on
the clock readings `later`.  The result is the identifiers returned before and those
returned after the second `init`. -/
def reconfigure_run (g : snowflake_state) (datacenter_id worker_id : Int)
    (n : Nat) (before : List Nat) (m : Nat) (later : List Nat) : List Nat × List Nat :=
  let g1 := (g.init datacenter_id worker_id).2
  let ids1 := match g1.snowflake with
    | some s => (returned (s.calls n before)).map Prod.fst
    | none => []
  let g2 : snowflake_state := { snowflake := g1.snowflake.map (fun s => (s.after n before).1) }
  let g3 := (g2.init datacenter_id worker_id).2
  let ids2 := match g3.snowflake with
    | some s => (returned (s.calls m later)).map Prod.fst
    | none => []
  (ids1, ids2)

/-- The event of a call of `init` that succeeded. -/
def Event.configured (ev : Event) : Bool :=
  match ev.call, ev.failure with
  | .init _ _, none => true
  | _, _ => false

/-! ## Arithmetic of the identifier layout -/

theorem toU64_shift (d : Int) (k : Nat) (h0 : 0 ≤ d) (h1 : d ≤ 31) (hk : k ≤ 22) :
    toU64 (d * 2 ^ k) = d.toNat * 2 ^ k := by
  obtain ⟨n, rfl⟩ := Int.eq_ofNat_of_zero_le h0
  have hn : n ≤ 31 := by omega
  have h2 : n * 2 ^ k < 2 ^ 64 := by
    calc n * 2 ^ k ≤ 31 * 2 ^ 22 :=
          Nat.mul_le_mul hn (Nat.pow_le_pow_right (by norm_num) hk)
      _ < 2 ^ 64 := by norm_num
  unfold toU64
  have : ((n : Int) * 2 ^ k) = ((n * 2 ^ k : Nat) : Int) := by push_cast; rfl
  rw [this]
  have h3 : (((n * 2 ^ k : Nat) : Int) % 2 ^ 64) = ((n * 2 ^ k % 2 ^ 64 : Nat) : Int) := by
    push_cast; rfl
  rw [h3, Int.toNat_ofNat, Nat.mod_eq_of_lt h2, Int.toNat_ofNat]

theorem or_eq_add_of_dvd (i a b : Nat) (ha : 2 ^ i ∣ a) (hb : b < 2 ^ i) : a ||| b = a + b := by
  obtain ⟨c, rfl⟩ := ha
  exact (Nat.mul_add_lt_is_or hb c).symm

theorem Snowflake.pack_eq_general (s : Snowflake) (t : Nat) (hc : s.Configured)
    (hs : s.sequence_ < 4096) :
    s.pack t = ((t + (2 ^ 64 - Snowflake.epoch)) % 2 ^ 42) * 2 ^ 22
      + s.datacenter_id_.toNat * 2 ^ 17 + s.worker_id_.toNat * 2 ^ 12 + s.sequence_ := by
  obtain ⟨hd0, hd1, hw0, hw1⟩ := hc
  have hd : s.datacenter_id_.toNat ≤ 31 := by omega
  have hw : s.worker_id_.toNat ≤ 31 := by omega
  unfold Snowflake.pack
  simp only [Snowflake.timestamp_left_shift, Snowflake.datacenter_id_shift,
    Snowflake.worker_id_shift, SEQUENCE_BITS, WORKER_ID_BITS, DATACENTER_ID_BITS]
  rw [toU64_shift _ _ hd0 hd1 (by norm_num), toU64_shift _ _ hw0 hw1 (by norm_num)]
  rw [Nat.shiftLeft_eq]
  have hx : (t + (2 ^ 64 - Snowflake.epoch)) % 2 ^ 64 * 2 ^ (12 + 5 + 5) % 2 ^ 64
      = 2 ^ 22 * ((t + (2 ^ 64 - Snowflake.epoch)) % 2 ^ 42) := by omega
  rw [hx]
  generalize (t + (2 ^ 64 - Snowflake.epoch)) % 2 ^ 42 = a
  generalize s.datacenter_id_.toNat = d at hd ⊢
  generalize s.worker_id_.toNat = w at hw ⊢
  generalize s.sequence_ = q at hs ⊢
  have e1 : 2 ^ 22 * a ||| d * 2 ^ 17 = 2 ^ 22 * a + d * 2 ^ 17 :=
    or_eq_add_of_dvd 22 _ _ ⟨a, rfl⟩ (by omega)
  have e2 : 2 ^ 22 * a + d * 2 ^ 17 ||| w * 2 ^ 12 = 2 ^ 22 * a + d * 2 ^ 17 + w * 2 ^ 12 :=
    or_eq_add_of_dvd 17 _ _ ⟨a * 32 + d, by ring⟩ (by omega)
  have e3 : 2 ^ 22 * a + d * 2 ^ 17 + w * 2 ^ 12 ||| q
      = 2 ^ 22 * a + d * 2 ^ 17 + w * 2 ^ 12 + q :=
    or_eq_add_of_dvd 12 _ _ ⟨a * 1024 + d * 32 + w, by ring⟩ hs
  rw [e1, e2, e3]
  ring

/-- In range, the identifier is the plain positional sum of its four fields. -/
theorem Snowflake.pack_eq (s : Snowflake) (t : Nat) (hc : s.Configured)
    (hs : s.sequence_ < 4096) (h0 : Snowflake.epoch ≤ t) (h1 : t < Snowflake.epoch + 2 ^ 41) :
    s.pack t = (t - Snowflake.epoch) * 2 ^ 22
      + s.datacenter_id_.toNat * 2 ^ 17 + s.worker_id_.toNat * 2 ^ 12 + s.sequence_ := by
  rw [Snowflake.pack_eq_general s t hc hs]
  have : (t + (2 ^ 64 - Snowflake.epoch)) % 2 ^ 42 = t - Snowflake.epoch := by
    unfold Snowflake.epoch at *
    omega
  rw [this]

/-! ## One call of `next` -/

theorem Snowflake.sequence_step (q : Nat) :
    ((q + 1) % 2 ^ 64) &&& toU64 Snowflake.sequence_mask = (q + 1) % 4096 := by
  have hm : toU64 Snowflake.sequence_mask = 2 ^ 12 - 1 := by decide
  rw [hm, Nat.and_pow_two_sub_one_eq_mod]
  omega

theorem Snowflake.sequence_step_lt (q : Nat) :
    ((q + 1) % 2 ^ 64) &&& toU64 Snowflake.sequence_mask < 4096 := by
  have hm : toU64 Snowflake.sequence_mask = 2 ^ 12 - 1 := by decide
  rw [hm, Nat.and_pow_two_sub_one_eq_mod]
  omega

theorem Snowflake.wait_spec (last : Nat) (clock : List Nat) (t : Nat) (rest : List Nat)
    (h : Snowflake.wait_for_next_millis last clock = some (t, rest)) :
    last < t ∧ ∃ pre, clock = pre ++ t :: rest ∧ ∀ x ∈ pre, x ≤ last := by
  induction clock with
  | nil => simp [Snowflake.wait_for_next_millis] at h
  | cons x xs ih =>
    unfold Snowflake.wait_for_next_millis at h
    split at h
    · obtain ⟨h1, pre, h2, h3⟩ := ih h
      refine ⟨h1, x :: pre, by simp [h2], ?_⟩
      intro y hy
      rcases List.mem_cons.mp hy with rfl | hy
      · assumption
      · exact h3 y hy
    · simp only [Option.some.injEq, Prod.mk.injEq] at h
      obtain ⟨rfl, rfl⟩ := h
      exact ⟨by omega, [], rfl, by simp⟩

theorem Snowflake.wait_of_later (last : Nat) (pre : List Nat) (t : Nat) (rest : List Nat)
    (hpre : ∀ x ∈ pre, x ≤ last) (ht : last < t) :
    Snowflake.wait_for_next_millis last (pre ++ t :: rest) = some (t, rest) := by
  induction pre with
  | nil => simp [Snowflake.wait_for_next_millis]; omega
  | cons x xs ih =>
    have hx : x ≤ last := hpre x (by simp)
    simp only [List.cons_append, Snowflake.wait_for_next_millis, hx, if_true]
    exact ih (fun y hy => hpre y (by simp [hy]))

/-- What a successful call of `next` establishes. -/
theorem Snowflake.next_ok_spec (s : Snowflake) (clock : List Nat) (id : Nat) (s1 : Snowflake)
    (rest : List Nat) (h : s.next clock = some (.ok id, s1, rest)) :
    id = s1.pack s1.last_timestamp_ ∧ s1.datacenter_id_ = s.datacenter_id_ ∧
      s1.worker_id_ = s.worker_id_ ∧ s1.last_timestamp_ ∈ clock ∧
      (∃ pre, clock = pre ++ rest) ∧ s1.sequence_ < 4096 ∧
      s.last_timestamp_ ≤ s1.last_timestamp_ ∧
      (s.sequence_ < 4096 → s1.last_timestamp_ = s.last_timestamp_ →
        s1.sequence_ = s.sequence_ + 1) ∧
      (s.last_timestamp_ < s1.last_timestamp_ → s1.sequence_ = 0) := by
  cases clock with
  | nil => simp [Snowflake.next] at h
  | cons t c =>
    unfold Snowflake.next at h
    simp only at h
    split at h
    · simp at h
    · split at h
      · split at h
        · split at h
          · simp at h
          · rename_i hnlt heq hz _ t2 c2 hw
            obtain ⟨hlt, pre, hpre, -⟩ := Snowflake.wait_spec _ _ _ _ hw
            simp only [Option.some.injEq, Prod.mk.injEq, Except.ok.injEq] at h
            obtain ⟨rfl, rfl, rfl⟩ := h
            refine ⟨rfl, rfl, rfl, ?_, ⟨t :: pre ++ [t2], by simp [hpre]⟩, ?_, ?_, ?_, ?_⟩
            · simp [hpre]
            · exact Snowflake.sequence_step_lt _
            · exact Nat.le_of_lt hlt
            · intro _ he; simp only at he; omega
            · intro _; exact hz
        · simp only [Option.some.injEq, Prod.mk.injEq, Except.ok.injEq] at h
          obtain ⟨rfl, rfl, rfl⟩ := h
          rename_i hnlt heq hz
          refine ⟨rfl, rfl, rfl, by simp, ⟨[t], by simp⟩, Snowflake.sequence_step_lt _,
            Nat.le_of_eq heq.symm, ?_, ?_⟩
          · intro hq _
            simp only
            rw [Snowflake.sequence_step _] at hz ⊢
            omega
          · intro hlt; simp only at hlt; omega
      · simp only [Option.some.injEq, Prod.mk.injEq, Except.ok.injEq] at h
        obtain ⟨rfl, rfl, rfl⟩ := h
        rename_i hnlt hne
        refine ⟨rfl, rfl, rfl, by simp, ⟨[t], by simp⟩, by simp, ?_, ?_, ?_⟩
        · simp only; omega
        · intro _ he; simp only at he; omega
        · intro _; rfl

/-- What a failing call of `next` establishes. -/
theorem Snowflake.next_error_spec (s : Snowflake) (clock : List Nat) (e : SnowflakeError)
    (s1 : Snowflake) (rest : List Nat) (h : s.next clock = some (.error e, s1, rest)) :
    e = .ClockMovedBackward ∧ s1 = s ∧ ∃ t, clock = t :: rest ∧ t < s.last_timestamp_ := by
  cases clock with
  | nil => simp [Snowflake.next] at h
  | cons t c =>
    unfold Snowflake.next at h
    simp only at h
    split at h
    · simp only [Option.some.injEq, Prod.mk.injEq, Except.error.injEq] at h
      obtain ⟨rfl, rfl, rfl⟩ := h
      exact ⟨rfl, rfl, t, rfl, by assumption⟩
    · split at h
      · split at h
        · split at h <;> simp at h
        · simp at h
      · simp at h

/-! ## Runs of calls -/

theorem Snowflake.Before.trans {a b c : Snowflake} (h1 : a.Before b) (h2 : b.Before c) :
    a.Before c := by
  unfold Snowflake.Before at *
  omega

theorem returned_cons_ok (id : Nat) (s : Snowflake)
    (rest : List (Except SnowflakeError Nat × Snowflake)) :
    returned ((.ok id, s) :: rest) = (id, s) :: returned rest := rfl

theorem returned_cons_error (e : SnowflakeError) (s : Snowflake)
    (rest : List (Except SnowflakeError Nat × Snowflake)) :
    returned ((.error e, s) :: rest) = returned rest := rfl

/-- The invariant of a run: every returned identifier is the packing of the state that
follows it, the identifiers of the generator are kept, each timestamp used is a clock
reading, and the states of the successful calls increase strictly in `Before`. -/
theorem Snowflake.calls_invariant (n : Nat) : ∀ (s : Snowflake) (clock : List Nat),
    (∀ p ∈ returned (s.calls n clock),
        p.1 = p.2.pack p.2.last_timestamp_ ∧ p.2.datacenter_id_ = s.datacenter_id_ ∧
        p.2.worker_id_ = s.worker_id_ ∧ p.2.sequence_ < 4096 ∧
        p.2.last_timestamp_ ∈ clock ∧ s.last_timestamp_ ≤ p.2.last_timestamp_ ∧
        (s.sequence_ < 4096 → s.Before p.2)) ∧
      (returned (s.calls n clock)).Pairwise (fun a b => a.2.Before b.2) := by
  induction n with
  | zero => intro s clock; simp [Snowflake.calls, returned]
  | succ n ih =>
    intro s clock
    unfold Snowflake.calls
    split
    · simp [returned]
    · rename_i r s1 c1 hnext
      obtain ⟨ihm, ihp⟩ := ih s1 c1
      cases r with
      | error e =>
        obtain ⟨-, rfl, t, rfl, -⟩ := Snowflake.next_error_spec _ _ _ _ _ hnext
        rw [returned_cons_error]
        refine ⟨?_, ihp⟩
        intro p hp
        obtain ⟨h1, h2, h3, h4, h5, h6⟩ := ihm p hp
        exact ⟨h1, h2, h3, h4, List.mem_cons_of_mem _ h5, h6⟩
      | ok id =>
        obtain ⟨e1, e2, e3, e4, ⟨pre, e5⟩, e6, e7, e8, e9⟩ :=
          Snowflake.next_ok_spec _ _ _ _ _ hnext
        have hb : s.sequence_ < 4096 → s.Before s1 := by
          intro hq
          unfold Snowflake.Before
          rcases Nat.lt_or_ge s.last_timestamp_ s1.last_timestamp_ with hlt | hge
          · exact Or.inl hlt
          · have heq : s1.last_timestamp_ = s.last_timestamp_ := by omega
            have := e8 hq heq
            exact Or.inr ⟨heq.symm, by omega⟩
        rw [returned_cons_ok]
        refine ⟨?_, ?_⟩
        · intro p hp
          rcases List.mem_cons.mp hp with rfl | hp
          · exact ⟨e1, e2, e3, e6, e4, e7, hb⟩
          · obtain ⟨h1, h2, h3, h4, h5, h6, h7⟩ := ihm p hp
            refine ⟨h1, h2.trans e2, h3.trans e3, h4, ?_, by omega, ?_⟩
            · rw [e5]; exact List.mem_append_right _ h5
            · intro hq; exact (hb hq).trans (h7 e6)
        · rw [List.pairwise_cons]
          exact ⟨fun p hp => (ihm p hp).2.2.2.2.2.2 e6, ihp⟩

/-- Order of two packed identifiers of one configured generator, by their states. -/
theorem Snowflake.pack_lt_of_before (a b : Snowflake) (ha : a.Configured)
    (hd : b.datacenter_id_ = a.datacenter_id_) (hw : b.worker_id_ = a.worker_id_)
    (hqa : a.sequence_ < 4096) (hqb : b.sequence_ < 4096)
    (ha0 : Snowflake.epoch ≤ a.last_timestamp_)
    (hb1 : b.last_timestamp_ < Snowflake.epoch + 2 ^ 41)
    (hab : a.Before b) :
    a.pack a.last_timestamp_ < b.pack b.last_timestamp_ := by
  have hb : b.Configured := by
    unfold Snowflake.Configured at *; rw [hd, hw]; exact ha
  have hlt : a.last_timestamp_ ≤ b.last_timestamp_ := by
    unfold Snowflake.Before at hab; omega
  rw [Snowflake.pack_eq a _ ha hqa ha0 (by omega),
    Snowflake.pack_eq b _ hb hqb (by omega) hb1, hd, hw]
  obtain ⟨h1, h2, h3, h4⟩ := ha
  have hd2 : a.datacenter_id_.toNat ≤ 31 := by omega
  have hw2 : a.worker_id_.toNat ≤ 31 := by omega
  generalize a.datacenter_id_.toNat = d at hd2 ⊢
  generalize a.worker_id_.toNat = w at hw2 ⊢
  unfold Snowflake.Before at hab
  omega

/-- Along a run of a configured generator on readings in the window, the successful calls
have strictly increasing states and strictly increasing identifiers. -/
theorem Snowflake.calls_sorted (s : Snowflake) (hc : s.Configured) (clock : List Nat)
    (hclock : InWindow clock) (n : Nat) :
    (returned (s.calls n clock)).Pairwise (fun a b => a.2.Before b.2 ∧ a.1 < b.1) := by
  obtain ⟨hm, hp⟩ := Snowflake.calls_invariant n s clock
  refine hp.imp_of_mem ?_
  intro a b ha hb hab
  obtain ⟨a1, a2, a3, a4, a5, -⟩ := hm a ha
  obtain ⟨b1, b2, b3, b4, b5, -⟩ := hm b hb
  refine ⟨hab, ?_⟩
  rw [a1, b1]
  have hca : a.2.Configured := by
    unfold Snowflake.Configured at *; rw [a2, a3]; exact hc
  exact Snowflake.pack_lt_of_before a.2 b.2 hca (b2.trans a2.symm) (b3.trans a3.symm) a4 b4
    (hclock _ a5).1 (hclock _ b5).2 hab

/-! ## Properties of the generator -/

/-- C1 (uniqueness).  A generator built by the constructor (identifiers in `[0, 31]`,
`sequence_ = 0`, `last_timestamp_ = 0`) and run on any clock whose readings lie in
`[epoch, epoch + 2 ^ 41)` never returns the same identifier twice: the identifiers of the
successful calls of any run are pairwise distinct, whatever calls fail in between. -/
theorem snowflake_unique (datacenter_id worker_id : Int) (s : Snowflake)
    (hs : Snowflake.new datacenter_id worker_id = .ok s) (clock : List Nat)
    (hclock : InWindow clock) (n : Nat) :
    ((returned (s.calls n clock)).map Prod.fst).Nodup := by
  have hc : s.Configured := by
    unfold Snowflake.new at hs
    split at hs
    · simp at hs
    · split at hs
      · simp at hs
      · simp only [Except.ok.injEq] at hs
        subst hs
        simp only [DATACENTER_ID_BITS, WORKER_ID_BITS] at *
        unfold Snowflake.Configured
        simp only
        norm_num at *
        omega
  have h := Snowflake.calls_sorted s hc clock hclock n
  unfold List.Nodup
  rw [List.pairwise_map]
  exact h.imp (fun hab => Nat.ne_of_lt hab.2)

theorem snowflake_unique_witness :
    Snowflake.new 3 7 = .ok (Snowflake.mk 3 7 0 0) ∧
    InWindow [1577836800005, 1577836800005, 1577836800001, 1577836800009] ∧
    ((returned ((Snowflake.mk 3 7 0 0).calls 4
      [1577836800005, 1577836800005, 1577836800001, 1577836800009])).map Prod.fst).Nodup :=
  ⟨by decide, by decide, snowflake_unique 3 7 _ (by decide)
    [1577836800005, 1577836800005, 1577836800001, 1577836800009] (by decide) 4⟩

/-- C2 (monotonicity).  For a generator with identifiers in `[0, 31]` in any state and a
clock in `[epoch, epoch + 2 ^ 41)`, any successful call `a` and any later successful
call `b` of a run satisfy: the timestamp used by `b` is not earlier than the one used by
`a`, `a ≤ b`, and `a < b` both when the two fall in the same millisecond (where the
sequence of `b` is the larger) and when the timestamp of `b` is later. -/
theorem snowflake_monotone (s : Snowflake) (hc : s.Configured) (clock : List Nat)
    (hclock : InWindow clock) (n : Nat) :
    (returned (s.calls n clock)).Pairwise (fun a b =>
      a.2.last_timestamp_ ≤ b.2.last_timestamp_ ∧ a.1 ≤ b.1 ∧
      (a.2.last_timestamp_ = b.2.last_timestamp_ → a.2.sequence_ < b.2.sequence_ ∧ a.1 < b.1) ∧
      (a.2.last_timestamp_ < b.2.last_timestamp_ → a.1 < b.1)) := by
  refine (Snowflake.calls_sorted s hc clock hclock n).imp ?_
  intro a b hab
  obtain ⟨hbef, hlt⟩ := hab
  unfold Snowflake.Before at hbef
  refine ⟨by omega, Nat.le_of_lt hlt, fun h => ⟨by omega, hlt⟩, fun _ => hlt⟩

theorem snowflake_monotone_witness :
    (Snowflake.mk 31 0 7 1577836800002).Configured ∧
    InWindow [1577836800002, 1577836800002, 1577836800001, 1577836800004] ∧
    (returned ((Snowflake.mk 31 0 7 1577836800002).calls 4
      [1577836800002, 1577836800002, 1577836800001, 1577836800004])).Pairwise (fun a b =>
      a.2.last_timestamp_ ≤ b.2.last_timestamp_ ∧ a.1 ≤ b.1 ∧
      (a.2.last_timestamp_ = b.2.last_timestamp_ → a.2.sequence_ < b.2.sequence_ ∧ a.1 < b.1) ∧
      (a.2.last_timestamp_ < b.2.last_timestamp_ → a.1 < b.1)) :=
  ⟨by decide, by decide, snowflake_monotone _ (by decide) _ (by decide) 4⟩

theorem layout_or_eq_add (a d w q : Nat) (hd : d ≤ 31) (hw : w ≤ 31) (hq : q < 4096) :
    a <<< 22 ||| d <<< 17 ||| w <<< 12 ||| q = a * 2 ^ 22 + d * 2 ^ 17 + w * 2 ^ 12 + q := by
  simp only [Nat.shiftLeft_eq]
  have e1 : a * 2 ^ 22 ||| d * 2 ^ 17 = a * 2 ^ 22 + d * 2 ^ 17 :=
    or_eq_add_of_dvd 22 _ _ ⟨a, by ring⟩ (by omega)
  have e2 : a * 2 ^ 22 + d * 2 ^ 17 ||| w * 2 ^ 12 = a * 2 ^ 22 + d * 2 ^ 17 + w * 2 ^ 12 :=
    or_eq_add_of_dvd 17 _ _ ⟨a * 32 + d, by ring⟩ (by omega)
  have e3 : a * 2 ^ 22 + d * 2 ^ 17 + w * 2 ^ 12 ||| q
      = a * 2 ^ 22 + d * 2 ^ 17 + w * 2 ^ 12 + q :=
    or_eq_add_of_dvd 12 _ _ ⟨a * 1024 + d * 32 + w, by ring⟩ hq
  rw [e1, e2, e3]

theorem Snowflake.pack_eq_specIdentifier (s : Snowflake) (t : Nat) (hc : s.Configured) :
    s.pack t = specIdentifier t s.datacenter_id_.toNat s.worker_id_.toNat s.sequence_ := by
  obtain ⟨hd0, hd1, hw0, hw1⟩ := hc
  have hd : s.datacenter_id_.toNat ≤ 31 := by omega
  have hw : s.worker_id_.toNat ≤ 31 := by omega
  unfold Snowflake.pack specIdentifier
  simp only [Snowflake.timestamp_left_shift, Snowflake.datacenter_id_shift,
    Snowflake.worker_id_shift, SEQUENCE_BITS, WORKER_ID_BITS, DATACENTER_ID_BITS,
    Snowflake.epoch, Nat.shiftLeft_eq]
  rw [toU64_shift _ _ hd0 hd1 (by norm_num), toU64_shift _ _ hw0 hw1 (by norm_num)]
  have e0 : t + (2 ^ 64 - 1577836800000) = t + 2 ^ 64 - 1577836800000 := by omega
  have e1 : s.datacenter_id_.toNat * 2 ^ 17 % 2 ^ 64 = s.datacenter_id_.toNat * 2 ^ 17 := by
    omega
  have e2 : s.worker_id_.toNat * 2 ^ 12 % 2 ^ 64 = s.worker_id_.toNat * 2 ^ 12 := by omega
  rw [e0, e1, e2]

/-- C3 (encoding).  Whenever `next` returns an identifier on a generator with identifiers
in `[0, 31]`, that identifier is the formula of the specification evaluated (on unsigned
64-bit values) at the `last_timestamp_` and `sequence_` the generator has after the call
and at its two identifiers, with `epoch = 1577836800000`, the number of milliseconds from
1970-01-01 to 2020-01-01 (18262 days).  When that timestamp lies in
`[epoch, epoch + 2 ^ 41)` nothing wraps and the identifier is the same expression on
unbounded naturals. -/
theorem next_encoding (s : Snowflake) (hc : s.Configured) (clock : List Nat) (id : Nat)
    (s1 : Snowflake) (rest : List Nat) (h : s.next clock = some (.ok id, s1, rest)) :
    Snowflake.epoch = 1577836800000 ∧ Snowflake.epoch = (50 * 365 + 12) * 86400 * 1000 ∧
    id = specIdentifier s1.last_timestamp_ s1.datacenter_id_.toNat s1.worker_id_.toNat
      s1.sequence_ ∧
    s1.datacenter_id_ = s.datacenter_id_ ∧ s1.worker_id_ = s.worker_id_ ∧
    (Snowflake.epoch ≤ s1.last_timestamp_ → s1.last_timestamp_ < Snowflake.epoch + 2 ^ 41 →
      id = (s1.last_timestamp_ - Snowflake.epoch) <<< 22 ||| s1.datacenter_id_.toNat <<< 17
        ||| s1.worker_id_.toNat <<< 12 ||| s1.sequence_) := by
  obtain ⟨e1, e2, e3, -, -, e6, -⟩ := Snowflake.next_ok_spec _ _ _ _ _ h
  have hc1 : s1.Configured := by
    unfold Snowflake.Configured at *; rw [e2, e3]; exact hc
  refine ⟨rfl, by decide, ?_, e2, e3, ?_⟩
  · rw [e1]; exact Snowflake.pack_eq_specIdentifier s1 _ hc1
  · intro h0 h1
    rw [e1, Snowflake.pack_eq s1 _ hc1 e6 h0 h1]
    obtain ⟨hd0, hd1, hw0, hw1⟩ := hc1
    exact (layout_or_eq_add _ _ _ _ (by omega) (by omega) e6).symm

theorem next_encoding_witness :
    (Snowflake.mk 3 7 4094 1577836800005).Configured ∧
    (Snowflake.mk 3 7 4094 1577836800005).next [1577836800005, 1577836800006]
      = some (.ok 21397503, Snowflake.mk 3 7 4095 1577836800005, [1577836800006]) ∧
    21397503 = specIdentifier 1577836800005 3 7 4095 :=
  ⟨by decide, by decide,
    (next_encoding (Snowflake.mk 3 7 4094 1577836800005) (by decide)
      [1577836800005, 1577836800006] 21397503 (Snowflake.mk 3 7 4095 1577836800005)
      [1577836800006] (by decide)).2.2.1⟩

/-- The wait loop ends as soon as the clock has some later reading. -/
theorem Snowflake.wait_returns (last : Nat) (clock : List Nat)
    (h : ∃ t ∈ clock, last < t) :
    ∃ t rest, Snowflake.wait_for_next_millis last clock = some (t, rest) := by
  induction clock with
  | nil => simp at h
  | cons x xs ih =>
    unfold Snowflake.wait_for_next_millis
    split
    · rename_i hx
      obtain ⟨t, ht, hlt⟩ := h
      rcases List.mem_cons.mp ht with rfl | ht
      · omega
      · exact ih ⟨t, ht, hlt⟩
    · exact ⟨x, xs, rfl⟩

/-- C4 (clock regression).  A call of `next` whose clock reading `current` is earlier than
`last_timestamp_` throws `ClockMovedBackward`, returns no identifier and leaves every
member of the generator as it was.  A call whose reading is not earlier never throws; it
returns an identifier, at the latest once the clock shows a reading later than
`last_timestamp_`. -/
theorem next_clock_regression (s : Snowflake) (current : Nat) (clock : List Nat) :
    (current < s.last_timestamp_ →
      s.next (current :: clock) = some (.error .ClockMovedBackward, s, clock)) ∧
    (s.last_timestamp_ ≤ current →
      (∀ e s1 rest, s.next (current :: clock) ≠ some (.error e, s1, rest)) ∧
      ((∃ t ∈ clock, s.last_timestamp_ < t) →
        ∃ id s1 rest, s.next (current :: clock) = some (.ok id, s1, rest))) := by
  refine ⟨?_, ?_⟩
  · intro h
    simp [Snowflake.next, h]
  · intro h
    refine ⟨?_, ?_⟩
    · intro e s1 rest hn
      obtain ⟨-, -, t, ht, hlt⟩ := Snowflake.next_error_spec _ _ _ _ _ hn
      simp only [List.cons.injEq] at ht
      omega
    · intro hex
      have hnlt : ¬ current < s.last_timestamp_ := by omega
      unfold Snowflake.next
      simp only [hnlt, if_false]
      split
      · split
        · obtain ⟨t, rest, hw⟩ := Snowflake.wait_returns _ _ hex
          rw [hw]
          exact ⟨_, _, _, rfl⟩
        · exact ⟨_, _, _, rfl⟩
      · exact ⟨_, _, _, rfl⟩

theorem next_clock_regression_witness :
    (Snowflake.mk 3 7 9 1577836800005).next [1577836800004, 1577836800006]
        = some (.error .ClockMovedBackward, Snowflake.mk 3 7 9 1577836800005, [1577836800006]) ∧
    (∃ id s1 rest, (Snowflake.mk 3 7 4095 1577836800005).next [1577836800005, 1577836800006]
        = some (.ok id, s1, rest)) :=
  ⟨(next_clock_regression (Snowflake.mk 3 7 9 1577836800005) 1577836800004
      [1577836800006]).1 (by decide),
   ((next_clock_regression (Snowflake.mk 3 7 4095 1577836800005) 1577836800005
      [1577836800006]).2 (by decide)).2 ⟨1577836800006, by decide, by decide⟩⟩

/-- C7 (decoding).  For a timestamp with `0 ≤ timestamp - epoch < 2 ^ 41`, identifiers in
`[0, 31]` and a sequence in `[0, 4095]`, the identifier `id` that the generator packs
satisfies `(id >> 22) + epoch = timestamp`, `(id >> 17) & 0x1F = datacenter_id_`,
`(id >> 12) & 0x1F = worker_id_` and `id & 0xFFF = sequence_`, and bit 63 of `id` is zero. -/
theorem pack_decode (s : Snowflake) (timestamp : Nat) (hc : s.Configured)
    (hq : s.sequence_ ≤ 4095) (h0 : Snowflake.epoch ≤ timestamp)
    (h1 : timestamp - Snowflake.epoch < 2 ^ 41) :
    (s.pack timestamp >>> 22) + Snowflake.epoch = timestamp ∧
    (((s.pack timestamp >>> 17) &&& 0x1F : Nat) : Int) = s.datacenter_id_ ∧
    (((s.pack timestamp >>> 12) &&& 0x1F : Nat) : Int) = s.worker_id_ ∧
    s.pack timestamp &&& 0xFFF = s.sequence_ ∧
    s.pack timestamp < 2 ^ 63 ∧ (s.pack timestamp).testBit 63 = false := by
  rw [Snowflake.pack_eq s timestamp hc (by omega) h0 (by omega)]
  obtain ⟨hd0, hd1, hw0, hw1⟩ := hc
  have hd : ((s.datacenter_id_.toNat : Nat) : Int) = s.datacenter_id_ := Int.toNat_of_nonneg hd0
  have hw : ((s.worker_id_.toNat : Nat) : Int) = s.worker_id_ := Int.toNat_of_nonneg hw0
  have hd2 : s.datacenter_id_.toNat ≤ 31 := by omega
  have hw2 : s.worker_id_.toNat ≤ 31 := by omega
  rw [← hd, ← hw]
  simp only [Int.toNat_ofNat, Nat.cast_inj]
  generalize s.datacenter_id_.toNat = d at hd2 ⊢
  generalize s.worker_id_.toNat = w at hw2 ⊢
  generalize s.sequence_ = q at hq ⊢
  have ht : timestamp = (timestamp - Snowflake.epoch) + Snowflake.epoch := by omega
  generalize timestamp - Snowflake.epoch = a at h1 ht ⊢
  have m5 : ∀ x : Nat, x &&& 0x1F = x % 2 ^ 5 := fun x => Nat.and_pow_two_sub_one_eq_mod x 5
  have m12 : ∀ x : Nat, x &&& 0xFFF = x % 2 ^ 12 := fun x => Nat.and_pow_two_sub_one_eq_mod x 12
  have hlt : a * 2 ^ 22 + d * 2 ^ 17 + w * 2 ^ 12 + q < 2 ^ 63 := by omega
  refine ⟨?_, ?_, ?_, ?_, hlt, ?_⟩
  · rw [Nat.shiftRight_eq_div_pow]; omega
  · rw [m5, Nat.shiftRight_eq_div_pow]; omega
  · rw [m5, Nat.shiftRight_eq_div_pow]; omega
  · rw [m12]; omega
  · exact Nat.testBit_lt_two_pow hlt

theorem pack_decode_witness :
    (Snowflake.mk 31 30 4095 0).Configured ∧
    ((Snowflake.mk 31 30 4095 0).pack (1577836800000 + 2 ^ 41 - 1) >>> 22) + Snowflake.epoch
      = 1577836800000 + 2 ^ 41 - 1 ∧
    (Snowflake.mk 31 30 4095 0).pack (1577836800000 + 2 ^ 41 - 1) &&& 0xFFF = 4095 :=
  ⟨by decide,
   (pack_decode (Snowflake.mk 31 30 4095 0) (1577836800000 + 2 ^ 41 - 1) (by decide)
      (by decide) (by decide) (by decide)).1,
   (pack_decode (Snowflake.mk 31 30 4095 0) (1577836800000 + 2 ^ 41 - 1) (by decide)
      (by decide) (by decide) (by decide)).2.2.2.1⟩

/-- A call in the millisecond already in use, below the last sequence value. -/
theorem Snowflake.next_same_ms (s : Snowflake) (clock : List Nat)
    (hq : s.sequence_ + 1 < 4096) :
    s.next (s.last_timestamp_ :: clock)
      = some ((s.minted s.last_timestamp_ (s.sequence_ + 1)).1,
          (s.minted s.last_timestamp_ (s.sequence_ + 1)).2, clock) := by
  have e : ((s.sequence_ + 1) % 2 ^ 64) &&& toU64 Snowflake.sequence_mask = s.sequence_ + 1 := by
    rw [Snowflake.sequence_step]; omega
  have e2 : ¬ (s.sequence_ + 1 = 0) := by omega
  simp only [Snowflake.next, Snowflake.minted, e, e2, lt_irrefl, if_false, if_true]

/-- A call in a later millisecond. -/
theorem Snowflake.next_later_ms (s : Snowflake) (T : Nat) (clock : List Nat)
    (hT : s.last_timestamp_ < T) :
    s.next (T :: clock) = some ((s.minted T 0).1, (s.minted T 0).2, clock) := by
  have h1 : ¬ T < s.last_timestamp_ := by omega
  have h2 : ¬ T = s.last_timestamp_ := by omega
  simp [Snowflake.next, Snowflake.minted, h1, h2]

/-- A call in the millisecond already in use, at the last sequence value: the sequence
wraps and the call waits for the first later reading. -/
theorem Snowflake.next_rollover (s : Snowflake) (pre : List Nat) (T2 : Nat) (rest : List Nat)
    (hq : s.sequence_ = 4095) (hpre : ∀ x ∈ pre, x ≤ s.last_timestamp_)
    (hT2 : s.last_timestamp_ < T2) :
    s.next (s.last_timestamp_ :: (pre ++ T2 :: rest))
      = some ((s.minted T2 0).1, (s.minted T2 0).2, rest) := by
  have e : ((s.sequence_ + 1) % 2 ^ 64) &&& toU64 Snowflake.sequence_mask = 0 := by
    rw [Snowflake.sequence_step, hq]
  simp only [Snowflake.next, Snowflake.minted, e, lt_irrefl, if_false, if_true,
    Snowflake.wait_of_later _ _ _ _ hpre hT2]

theorem Snowflake.minted_minted (s : Snowflake) (T i U j : Nat) :
    (s.minted T i).2.minted U j = s.minted U j := rfl

/-- Calls that all read the millisecond in use take the successive sequence values. -/
theorem Snowflake.calls_same_ms (k : Nat) : ∀ (m : Nat) (s : Snowflake) (T q : Nat)
    (clock : List Nat), q + k < 4096 →
    (s.minted T q).2.calls (k + m) (List.replicate k T ++ clock)
      = (List.range' (q + 1) k).map (s.minted T) ++ (s.minted T (q + k)).2.calls m clock := by
  induction k with
  | zero => intro m s T q clock _; simp
  | succ k ih =>
    intro m s T q clock hq
    have h1 : ((s.minted T q).2).sequence_ + 1 < 4096 := by
      show q + 1 < 4096
      omega
    have hn := Snowflake.next_same_ms (s.minted T q).2 (List.replicate k T ++ clock) h1
    have hT : ((s.minted T q).2).last_timestamp_ = T := rfl
    have hQ : ((s.minted T q).2).sequence_ = q := rfl
    rw [hT, hQ, Snowflake.minted_minted] at hn
    rw [show k + 1 + m = (k + m) + 1 by omega, List.replicate_succ, List.cons_append,
      Snowflake.calls, hn]
    simp only
    rw [ih m s T (q + 1) clock (by omega), List.range'_succ, List.map_cons, List.cons_append,
      show q + 1 + k = q + (k + 1) by omega]

theorem Snowflake.calls_succ_of_next (n : Nat) (s : Snowflake) (clock : List Nat)
    (r : Except SnowflakeError Nat) (s1 : Snowflake) (rest : List Nat)
    (h : s.next clock = some (r, s1, rest)) :
    s.calls (n + 1) clock = (r, s1) :: s1.calls n rest := by
  rw [Snowflake.calls, h]

theorem replicate_two_more (n : Nat) (T : Nat) (clock : List Nat) :
    List.replicate (n + 1 + 1) T ++ clock = T :: (List.replicate n T ++ (T :: clock)) := by
  rw [List.replicate_succ, List.replicate_succ', List.cons_append, List.append_assoc]
  rfl

/-- The run of `n + 2` calls that all read `T`, a millisecond not yet used, with `n + 1`
below the number of sequence values: sequences `0 .. n`, then whatever the last call does. -/
theorem Snowflake.calls_fresh_ms (n : Nat) (s : Snowflake) (T : Nat) (clock : List Nat)
    (hT : s.last_timestamp_ < T) (hn : n < 4096) :
    s.calls (n + 1 + 1) (List.replicate (n + 1 + 1) T ++ clock)
      = (List.range (n + 1)).map (s.minted T) ++ (s.minted T n).2.calls 1 (T :: clock) := by
  rw [replicate_two_more,
    Snowflake.calls_succ_of_next (n + 1) s _ _ _ _ (Snowflake.next_later_ms s T _ hT)]
  have h := Snowflake.calls_same_ms n 1 s T 0 (T :: clock) (by omega)
  simp only [Nat.zero_add] at h
  rw [h, List.range_eq_range', List.range'_succ, List.map_cons, List.cons_append]

/-- C6 (boundary).  On a generator with identifiers in `[0, 31]` whose `last_timestamp_` is
earlier than `T`, with a clock that reads `T` at each of 4097 calls: the first 4096 calls
succeed, use timestamp `T` and take the sequence values `0, 1, ..., 4095` in order, their
4096 identifiers are pairwise distinct, and the 4097th call keeps reading the clock
(`pre`, readings not later than `T`) until the first reading `T2` later than `T`, and
returns the identifier of timestamp `T2` and sequence `0`. -/
theorem next_boundary (s : Snowflake) (hc : s.Configured) (T : Nat)
    (hT : s.last_timestamp_ < T) (pre : List Nat) (T2 : Nat) (rest : List Nat)
    (hpre : ∀ x ∈ pre, x ≤ T) (hT2 : T < T2) :
    s.calls 4097 (List.replicate 4097 T ++ (pre ++ T2 :: rest))
        = (List.range 4096).map (s.minted T) ++ [s.minted T2 0] ∧
      ((List.range 4096).map
        (fun i => Snowflake.pack { s with sequence_ := i, last_timestamp_ := T } T)).Nodup := by
  have hlast : (s.minted T 4095).2.next (T :: (pre ++ T2 :: rest))
      = some ((s.minted T2 0).1, (s.minted T2 0).2, rest) :=
    Snowflake.next_rollover (s.minted T 4095).2 pre T2 rest rfl hpre hT2
  refine ⟨?_, ?_⟩
  · have h := Snowflake.calls_fresh_ms 4095 s T (pre ++ T2 :: rest) hT (by norm_num)
    rw [Snowflake.calls_succ_of_next 0 _ _ _ _ _ hlast] at h
    exact h
  · refine (List.nodup_range 4096).map_on ?_
    intro i hi j hj hij
    rw [List.mem_range] at hi hj
    rw [Snowflake.pack_eq_general { s with sequence_ := i, last_timestamp_ := T } T hc hi,
      Snowflake.pack_eq_general { s with sequence_ := j, last_timestamp_ := T } T hc hj] at hij
    simp only at hij
    omega

theorem next_boundary_witness :
    (Snowflake.mk 1 1 0 0).Configured ∧
    (Snowflake.mk 1 1 0 0).calls 4097
        (List.replicate 4097 1577836800000 ++ ([1577836800000, 5] ++ 1577836800001 :: [7]))
      = (List.range 4096).map ((Snowflake.mk 1 1 0 0).minted 1577836800000)
        ++ [(Snowflake.mk 1 1 0 0).minted 1577836800001 0] :=
  ⟨by decide, (next_boundary (Snowflake.mk 1 1 0 0) (by decide) 1577836800000 (by decide)
    [1577836800000, 5] 1577836800001 [7] (by decide) (by decide)).1⟩

/-! ## The holder and the Lua entry points -/

/-- With identifiers the constructor admits, `init` installs a fresh generator whatever
the holder contained. -/
theorem snowflake_state.init_fresh (g : snowflake_state) (datacenter_id worker_id : Int)
    (hd0 : 0 ≤ datacenter_id) (hd1 : datacenter_id ≤ 31)
    (hw0 : 0 ≤ worker_id) (hw1 : worker_id ≤ 31) :
    g.init datacenter_id worker_id
      = (.ok (), { snowflake := some (Snowflake.mk datacenter_id worker_id 0 0) }) := by
  have hn : Snowflake.new datacenter_id worker_id
      = .ok (Snowflake.mk datacenter_id worker_id 0 0) := by
    unfold Snowflake.new
    simp only [DATACENTER_ID_BITS, WORKER_ID_BITS]
    have e : ((1 <<< 5 : Nat) : Int) = 32 := by decide
    have h1 : ¬ (datacenter_id < 0 ∨ datacenter_id ≥ ((1 <<< 5 : Nat) : Int)) := by
      rw [e]; omega
    have h2 : ¬ (worker_id < 0 ∨ worker_id ≥ ((1 <<< 5 : Nat) : Int)) := by rw [e]; omega
    rw [if_neg h1, if_neg h2]
  unfold snowflake_state.init
  cases hg : g.snowflake with
  | none => simp [hg, hn]
  | some s0 => simp [hn]

/-- The function `linit` succeeds exactly when both arguments, cast to `int`, lie in
`[1, 31]`; a failing call leaves the holder as it was. -/
theorem linit_spec (g : snowflake_state) (arg1 arg2 : Int) :
    (0 < toInt32 arg1 ∧ toInt32 arg1 < 32 ∧ 0 < toInt32 arg2 ∧ toInt32 arg2 < 32 ∧
      linit g arg1 arg2
        = (.ok (), { snowflake := some (Snowflake.mk (toInt32 arg1) (toInt32 arg2) 0 0) })) ∨
    ((¬ (0 < toInt32 arg1 ∧ toInt32 arg1 < 32 ∧ 0 < toInt32 arg2 ∧ toInt32 arg2 < 32)) ∧
      linit g arg1 arg2 = (.error .OutOfRange, g)) := by
  unfold linit
  simp only [DATACENTER_ID_BITS, WORKER_ID_BITS]
  have e : ((1 <<< 5 : Nat) : Int) = 32 := by decide
  by_cases h1 : toInt32 arg1 > 0 ∧ toInt32 arg1 < ((1 <<< 5 : Nat) : Int)
  · by_cases h2 : toInt32 arg2 > 0 ∧ toInt32 arg2 < ((1 <<< 5 : Nat) : Int)
    · left
      rw [if_neg (not_not.mpr h1), if_neg (not_not.mpr h2)]
      rw [e] at h1 h2
      refine ⟨h1.1, h1.2, h2.1, h2.2, ?_⟩
      exact snowflake_state.init_fresh g _ _ (by omega) (by omega) (by omega) (by omega)
    · right
      rw [if_neg (not_not.mpr h1), if_pos h2]
      rw [e] at h2
      exact ⟨by omega, rfl⟩
  · right
    rw [if_pos h1]
    rw [e] at h1
    exact ⟨by omega, rfl⟩

/-- C5 (configuration validation), the code at the inputs where it departs from the
range `[0, 31]`.  The calls `init(32, 0)`, `init(0, 32)` and `init(-1, 0)` fail, but
`init(0, 0)`, `init(0, 5)` and `init(5, 0)` fail too although `0` lies in the range and the
constructor itself accepts it, and `init(4294967297, 1)` succeeds because the cast to
`int` turns the first argument into `1`. -/
theorem linit_range_divergence :
    (linit g_snowflake 32 0).1 = .error .OutOfRange ∧
    (linit g_snowflake 0 32).1 = .error .OutOfRange ∧
    (linit g_snowflake (-1) 0).1 = .error .OutOfRange ∧
    linit g_snowflake 0 0 = (.error .OutOfRange, g_snowflake) ∧
    linit g_snowflake 0 5 = (.error .OutOfRange, g_snowflake) ∧
    linit g_snowflake 5 0 = (.error .OutOfRange, g_snowflake) ∧
    Snowflake.new 0 0 = .ok (Snowflake.mk 0 0 0 0) ∧
    g_snowflake.init 0 0 = (.ok (), { snowflake := some (Snowflake.mk 0 0 0 0) }) ∧
    linit g_snowflake 4294967297 1 = (.ok (), { snowflake := some (Snowflake.mk 1 1 0 0) }) := by
  decide

/-- C8 as stated fails: with the non-decreasing clock `epoch, epoch` (both readings in the
window), `init(1, 1)`, one call of `next`, `init(1, 1)` again and one more call of `next`
return the same identifier `135168` twice. -/
theorem reconfigure_duplicate :
    InWindow [1577836800000] ∧ InWindow [1577836800000] ∧
    ([1577836800000] ++ [1577836800000]).Pairwise (fun x y => x ≤ y) ∧
    reconfigure_run g_snowflake 1 1 1 [1577836800000] 1 [1577836800000]
      = ([135168], [135168]) ∧
    ¬ (∀ a ∈ (reconfigure_run g_snowflake 1 1 1 [1577836800000] 1 [1577836800000]).1,
        ∀ b ∈ (reconfigure_run g_snowflake 1 1 1 [1577836800000] 1 [1577836800000]).2,
          a ≠ b ∧ a < b) := by
  decide

/-- C8, amended.  With identifiers in `[0, 31]`, `init` replaces whatever the holder
contains by a fresh generator (`sequence_ = 0`, `last_timestamp_ = 0`).  For a
non-decreasing clock in `[epoch, epoch + 2 ^ 41)` whose readings after the second `init`
are all strictly later than the readings before it, every identifier returned after the
second `init` is greater than, hence distinct from, every identifier returned before it. -/
theorem reconfigure_fresh (g : snowflake_state) (datacenter_id worker_id : Int)
    (hd0 : 0 ≤ datacenter_id) (hd1 : datacenter_id ≤ 31)
    (hw0 : 0 ≤ worker_id) (hw1 : worker_id ≤ 31) :
    g.init datacenter_id worker_id
        = (.ok (), { snowflake := some (Snowflake.mk datacenter_id worker_id 0 0) }) ∧
    ∀ (n : Nat) (before : List Nat) (m : Nat) (later : List Nat),
      InWindow before → InWindow later → (before ++ later).Pairwise (fun x y => x ≤ y) →
      (∀ x ∈ before, ∀ y ∈ later, x < y) →
      ∀ a ∈ (reconfigure_run g datacenter_id worker_id n before m later).1,
        ∀ b ∈ (reconfigure_run g datacenter_id worker_id n before m later).2,
          a ≠ b ∧ a < b := by
  refine ⟨snowflake_state.init_fresh g _ _ hd0 hd1 hw0 hw1, ?_⟩
  intro n before m later hb hl _ hsep a ha b hb2
  unfold reconfigure_run at ha hb2
  simp only [snowflake_state.init_fresh _ _ _ hd0 hd1 hw0 hw1, List.mem_map] at ha hb2
  obtain ⟨p, hp, rfl⟩ := ha
  obtain ⟨q, hq, rfl⟩ := hb2
  have hc : (Snowflake.mk datacenter_id worker_id 0 0).Configured := ⟨hd0, hd1, hw0, hw1⟩
  obtain ⟨p1, p2, p3, p4, p5, -⟩ := (Snowflake.calls_invariant n _ before).1 p hp
  obtain ⟨q1, q2, q3, q4, q5, -⟩ := (Snowflake.calls_invariant m _ later).1 q hq
  have hcp : p.2.Configured := by
    unfold Snowflake.Configured at *; rw [p2, p3]; exact hc
  have hlt : p.1 < q.1 := by
    rw [p1, q1]
    exact Snowflake.pack_lt_of_before p.2 q.2 hcp (q2.trans p2.symm) (q3.trans p3.symm) p4 q4
      (hb _ p5).1 (hl _ q5).2 (Or.inl (hsep _ p5 _ q5))
  exact ⟨Nat.ne_of_lt hlt, hlt⟩

theorem reconfigure_fresh_witness :
    InWindow [1577836800000, 1577836800000] ∧ InWindow [1577836800001, 1577836800001] ∧
    (∀ a ∈ (reconfigure_run g_snowflake 1 1 2 [1577836800000, 1577836800000] 2
          [1577836800001, 1577836800001]).1,
      ∀ b ∈ (reconfigure_run g_snowflake 1 1 2 [1577836800000, 1577836800000] 2
          [1577836800001, 1577836800001]).2, a ≠ b ∧ a < b) :=
  ⟨by decide, by decide,
    (reconfigure_fresh g_snowflake 1 1 (by decide) (by decide) (by decide) (by decide)).2
      2 [1577836800000, 1577836800000] 2 [1577836800001, 1577836800001]
      (by decide) (by decide) (by decide) (by decide)⟩

/-- Without a generator, `lnext` raises `"not init"`, and neither the holder nor the clock
is touched. -/
theorem lnext_of_none (g : snowflake_state) (clock : List Nat) (hg : g.snowflake = none) :
    lnext g clock = some (.error .Uninitialized, g, clock) := by
  simp [lnext, snowflake_state.next, hg]

/-- With a generator, a completed `lnext` does not raise `"not init"` and the holder still
owns a generator. -/
theorem lnext_of_some (g : snowflake_state) (clock : List Nat) (s : Snowflake)
    (hg : g.snowflake = some s) (r : Except SnowflakeError String) (g1 : snowflake_state)
    (rest : List Nat) (h : lnext g clock = some (r, g1, rest)) :
    r ≠ .error .Uninitialized ∧ g1.snowflake.isSome = true := by
  unfold lnext snowflake_state.next at h
  rw [hg] at h
  simp only at h
  cases hn : s.next clock with
  | none => rw [hn] at h; simp at h
  | some out =>
    obtain ⟨o, s1, c1⟩ := out
    rw [hn] at h
    cases o with
    | ok v =>
      simp only [Option.some.injEq, Prod.mk.injEq] at h
      obtain ⟨rfl, rfl, -⟩ := h
      simp
    | error e =>
      obtain ⟨he, -, -⟩ := Snowflake.next_error_spec _ _ _ _ _ hn
      simp only [Option.some.injEq, Prod.mk.injEq] at h
      obtain ⟨rfl, rfl, -⟩ := h
      subst he
      simp

/-- A history that starts without a generator and contains no successful `init` ends
without a generator and has not read the clock. -/
theorem history_unconfigured (calls : List Call) : ∀ (g : snowflake_state) (clock : List Nat),
    g.snowflake = none → (∀ ev ∈ (history calls g clock).1, ev.configured = false) →
    (history calls g clock).2.1.snowflake = none ∧ (history calls g clock).2.2 = clock := by
  induction calls with
  | nil => intro g clock hg _; exact ⟨hg, rfl⟩
  | cons c rest ih =>
    intro g clock hg hev
    cases c with
    | init a b =>
      simp only [history] at hev ⊢
      rcases linit_spec g a b with ⟨-, -, -, -, hok⟩ | ⟨-, herr⟩
      · have := hev _ (List.mem_cons_self _ _)
        rw [hok] at this
        simp [Event.configured, failureOf] at this
      · rw [herr] at hev ⊢
        exact ih g clock hg (fun ev h => hev ev (List.mem_cons_of_mem _ h))
    | next =>
      simp only [history, lnext_of_none g clock hg] at hev ⊢
      exact ih g clock hg (fun ev h => hev ev (List.mem_cons_of_mem _ h))

/-- A history that starts with a generator ends with one. -/
theorem history_configured (calls : List Call) : ∀ (g : snowflake_state) (clock : List Nat),
    g.snowflake.isSome = true → (history calls g clock).2.1.snowflake.isSome = true := by
  induction calls with
  | nil => intro g clock hg; exact hg
  | cons c rest ih =>
    intro g clock hg
    cases c with
    | init a b =>
      simp only [history]
      rcases linit_spec g a b with ⟨-, -, -, -, hok⟩ | ⟨-, herr⟩
      · rw [hok]; exact ih _ clock rfl
      · rw [herr]; exact ih g clock hg
    | next =>
      simp only [history]
      cases hn : lnext g clock with
      | none => exact hg
      | some out =>
        obtain ⟨r, g1, c1⟩ := out
        obtain ⟨s, hs⟩ := Option.isSome_iff_exists.mp hg
        exact ih g1 c1 (lnext_of_some g clock s hs r g1 c1 hn).2

/-- A history with a successful `init` ends with a generator. -/
theorem history_after_configure (calls : List Call) :
    ∀ (g : snowflake_state) (clock : List Nat),
    (∃ ev ∈ (history calls g clock).1, ev.configured = true) →
    (history calls g clock).2.1.snowflake.isSome = true := by
  induction calls with
  | nil => intro g clock h; simp [history] at h
  | cons c rest ih =>
    intro g clock hev
    cases c with
    | init a b =>
      simp only [history] at hev ⊢
      rcases linit_spec g a b with ⟨-, -, -, -, hok⟩ | ⟨-, herr⟩
      · rw [hok]; exact history_configured rest _ clock rfl
      · rw [herr] at hev ⊢
        obtain ⟨ev, hmem, hcfg⟩ := hev
        rcases List.mem_cons.mp hmem with rfl | hmem
        · simp [Event.configured, failureOf] at hcfg
        · exact ih g clock ⟨ev, hmem, hcfg⟩
    | next =>
      simp only [history] at hev ⊢
      cases hn : lnext g clock with
      | none => rw [hn] at hev; simp at hev
      | some out =>
        obtain ⟨r, g1, c1⟩ := out
        rw [hn] at hev
        simp only at hev ⊢
        obtain ⟨ev, hmem, hcfg⟩ := hev
        rcases List.mem_cons.mp hmem with rfl | hmem
        · simp [Event.configured] at hcfg
        · exact ih g1 c1 ⟨ev, hmem, hcfg⟩

/-- C9 (uninitialized use).  After any history of calls on the module, started from the
initial holder `g_snowflake`: when no `init` of the history succeeded, the history has
read no clock and `lnext` raises `Uninitialized`, returning nothing and leaving the clock
as it is; when some `init` of the history succeeded, no completed `lnext` raises
`Uninitialized`. -/
theorem lnext_uninitialized (calls : List Call) (clock : List Nat) :
    ((∀ ev ∈ (history calls g_snowflake clock).1, ev.configured = false) →
      (history calls g_snowflake clock).2.2 = clock ∧
      ∀ clock2, lnext (history calls g_snowflake clock).2.1 clock2
        = some (.error .Uninitialized, (history calls g_snowflake clock).2.1, clock2)) ∧
    ((∃ ev ∈ (history calls g_snowflake clock).1, ev.configured = true) →
      ∀ clock2 r g2 rest, lnext (history calls g_snowflake clock).2.1 clock2
        = some (r, g2, rest) → r ≠ .error .Uninitialized) := by
  refine ⟨?_, ?_⟩
  · intro h
    obtain ⟨h1, h2⟩ := history_unconfigured calls g_snowflake clock rfl h
    exact ⟨h2, fun clock2 => lnext_of_none _ clock2 h1⟩
  · intro h clock2 r g2 rest hn
    have hs := history_after_configure calls g_snowflake clock h
    obtain ⟨s, hs⟩ := Option.isSome_iff_exists.mp hs
    exact (lnext_of_some _ clock2 s hs r g2 rest hn).1

theorem lnext_uninitialized_witness :
    (lnext (history [.init 0 1, .next, .init 32 1] g_snowflake [1577836800000]).2.1
        [1577836800000]
      = some (.error .Uninitialized,
          (history [.init 0 1, .next, .init 32 1] g_snowflake [1577836800000]).2.1,
          [1577836800000])) ∧
    (lnext (history [.init 0 1, .init 2 1, .next, .init 0 0] g_snowflake
        [1577836800000, 1577836800000]).2.1 [1577836800000]
      = some (.ok "266241", { snowflake := some (Snowflake.mk 2 1 1 1577836800000) }, []) ∧
     Except.ok "266241" ≠ (.error .Uninitialized : Except SnowflakeError String)) :=
  ⟨((lnext_uninitialized [.init 0 1, .next, .init 32 1] [1577836800000]).1
      (by decide)).2 [1577836800000],
   by decide,
   (lnext_uninitialized [.init 0 1, .init 2 1, .next, .init 0 0]
      [1577836800000, 1577836800000]).2 ⟨⟨.init 2 1, none⟩, by decide, by decide⟩
      [1577836800000] (.ok "266241")
      { snowflake := some (Snowflake.mk 2 1 1 1577836800000) } [] (by decide)⟩
